import Mathlib

/-!
# Verification of the schemaforge-ai schema compiler

Shallow embedding of `app/services/structure_service.py`, the dynamic
model compiler of the repository: `create_dynamic_model` parses a JSON
Schema text and builds a pydantic model via the nested helpers
`json_schema_to_base_model` and `process_field`.

Python values parsed from JSON are modelled by the inductive `Json`.
Python exceptions are modelled by `Except String`.  Python's unbounded
recursion is modelled with an explicit fuel parameter (`0` fuel plays the
role of the interpreter's recursion limit).
-/

namespace SchemaForge

/-- A parsed JSON document (the result of Python's `json.loads`).
Objects are association lists in insertion order; keys coming from a
parsed document are unique, since Python dicts hold each key once.
Numbers are modelled as integers: no claim distinguishes fractional
values, and the compiler only compares `type` strings, never numbers. -/
inductive Json where
  | null : Json
  | bool : Bool → Json
  | num  : Int → Json
  | str  : String → Json
  | arr  : List Json → Json
  | obj  : List (String × Json) → Json

mutual
/-- Python `==` on parsed JSON values, used for dict-key deduplication
and container membership.  Python's cross-type equalities `True == 1`
and `1 == 1.0` are not modelled: in this development they are only ever
reached between values that are rejected anyway (enum member names must
be strings) or compared against strings, where Python also answers
false. -/
def Json.beq : Json → Json → Bool
  | .null, .null => true
  | .bool a, .bool b => a = b
  | .num a, .num b => a = b
  | .str a, .str b => a = b
  | .arr a, .arr b => Json.beqList a b
  | .obj a, .obj b => Json.beqKV a b
  | _, _ => false

def Json.beqList : List Json → List Json → Bool
  | [], [] => true
  | a :: as, b :: bs => Json.beq a b && Json.beqList as bs
  | _, _ => false

def Json.beqKV : List (String × Json) → List (String × Json) → Bool
  | [], [] => true
  | (k, a) :: as, (l, b) :: bs => k = l && Json.beq a b && Json.beqKV as bs
  | _, _ => false
end

/-- Python `x == "s"` for a parsed value `x` and a string literal. -/
def jsonEqStr (j : Json) (s : String) : Bool :=
  match j with
  | .str t => t = s
  | _ => false

/-- First binding of a key in an object's association list
(Python dict lookup; keys of a parsed dict are unique). -/
def lookupKey (l : List (String × Json)) (k : String) : Option Json :=
  match l with
  | [] => none
  | (k', v) :: rest => if k' = k then some v else lookupKey rest k

/-- Python truthiness of a parsed JSON value (`if x:`). -/
def truthy : Json → Bool
  | .null => false
  | .bool b => b
  | .num n => n ≠ 0
  | .str s => s ≠ ""
  | .arr l => ¬ l.isEmpty
  | .obj l => ¬ l.isEmpty

/-- `needle` occurs at the head of `hay`. -/
def leadsWith : List Char → List Char → Bool
  | [], _ => true
  | _ :: _, [] => false
  | a :: as, b :: bs => a = b ∧ leadsWith as bs

/-- Python's substring test `needle in hay` on strings. -/
def strHasSub (hay needle : String) : Bool :=
  (List.range (hay.toList.length + 1)).any
    (fun i => leadsWith needle.toList (hay.toList.drop i))

/-- Python's `name in container` for the containers `json.loads` can
produce: element equality on lists, substring on strings, key membership
on dicts, `TypeError` otherwise. -/
def pyContains (container : Json) (name : String) : Except String Bool :=
  match container with
  | .arr l => .ok (l.any (fun v => Json.beq v (.str name)))
  | .str s => .ok (strHasSub s name)
  | .obj l => .ok (l.any (fun p => p.1 = name))
  | _ => .error "TypeError: argument of type is not iterable"

/-- Python iteration `for v in x` over a parsed JSON value: elements of a
list, characters of a string, keys of a dict; `TypeError` otherwise. -/
def pyIter : Json → Except String (List Json)
  | .arr l => .ok l
  | .str s => .ok (s.toList.map (fun c => .str (String.singleton c)))
  | .obj l => .ok (l.map (fun p => .str p.1))
  | _ => .error "TypeError: object is not iterable"

/-- Keys already seen are skipped; used by `dedupFirst`. -/
def dedupFirstAux (seen : List Json) : List Json → List Json
  | [] => []
  | v :: rest =>
    if seen.any (fun w => Json.beq w v) then dedupFirstAux seen rest
    else v :: dedupFirstAux (v :: seen) rest

/-- Keys of the dict comprehension `\x7bv: v for v in vs\x7d`: duplicates
collapse to their first occurrence, order otherwise preserved. -/
def dedupFirst (l : List Json) : List Json := dedupFirstAux [] l

/-- Python's `str.capitalize`: first character uppercased, the rest
lowercased. -/
def pyCapitalize (s : String) : String :=
  match s.toList with
  | [] => ""
  | c :: cs => String.mk (c.toUpper :: cs.map Char.toLower)

/-- Whether a JSON value is a string. -/
def Json.isStr : Json → Bool
  | .str _ => true
  | _ => false

/-- The default slot of `Field`: `required` models the Ellipsis `...`
(no default, field required), `value v` models an explicit default
(`None` being `value Json.null`). -/
inductive PyDefault where
  | required : PyDefault
  | value : Json → PyDefault

mutual
/-- The Python type assigned to a field by `process_field`
(`str`, `int`, `float`, `bool`, `list`, `list[T]`, `dict`, `Any`,
an `Enum` class, a nested pydantic model, or `Optional[T]`). -/
inductive PyType where
  | pystr : PyType
  | pyint : PyType
  | pyfloat : PyType
  | pybool : PyType
  /-- `list` when the element is `none` (bare `list` from the type table),
  `list[T]` otherwise. -/
  | pylist : Option PyType → PyType
  | pydict : PyType
  | anyT : PyType
  /-- `Enum(name, \x7bv: v for v in values\x7d)`: member names and values
  coincide. -/
  | enumT : String → List Json → PyType
  | modelT : DynModel → PyType
  | optionalT : PyType → PyType

/-- A pydantic model produced by `create_model(name, **model_fields)`:
a name and the fields in insertion order.  Each field carries its type,
its default marker and the `description` passed to `Field`. -/
inductive DynModel where
  | mk : String → List (String × FieldSpec) → DynModel

/-- One entry of `model_fields`: `(field_type, Field(default_value,
description=description))`. -/
inductive FieldSpec where
  | mk : PyType → PyDefault → Json → FieldSpec
end

def DynModel.name : DynModel → String
  | .mk n _ => n

def DynModel.fields : DynModel → List (String × FieldSpec)
  | .mk _ fs => fs

def FieldSpec.type : FieldSpec → PyType
  | .mk t _ _ => t

def FieldSpec.default : FieldSpec → PyDefault
  | .mk _ d _ => d

def FieldSpec.description : FieldSpec → Json
  | .mk _ _ d => d

/-- The `type_mapping` dict of `json_schema_to_base_model`, applied with
`.get(json_type, Any)`: non-string keys and unknown strings fall to the
`Any` default. -/
def type_mapping_get : Json → PyType
  | .str "string" => .pystr
  | .str "integer" => .pyint
  | .str "number" => .pyfloat
  | .str "boolean" => .pybool
  | .str "array" => .pylist none
  | .str "object" => .pydict
  | _ => .anyT

/-- `Enum(enum_name, \x7bv: v for v in enum_values\x7d)`.  The dict
comprehension iterates `enum_values` and collapses duplicates to their
first occurrence; the Enum functional API then requires every member
name (= the iterated value) to be a string and raises `TypeError`
otherwise (observed: `Enum("E", \x7b1: 1\x7d)` raises `TypeError`). -/
def mkEnum (name : String) (enumValues : Json) : Except String PyType := do
  let vs ← pyIter enumValues
  let keys := dedupFirst vs
  if keys.all Json.isStr then
    .ok (.enumT name keys)
  else
    .error "TypeError: enum member names must be strings"

/-- The `if/elif/else` chain of `process_field` (lines 96-114) computing
`field_type`; `jsbm` stands for the recursive call to
`json_schema_to_base_model`.  Precedence: a truthy `enum` first, then
`type == "object"` with a `properties` key, then `type == "array"` with
an `items` key, then the primitive table. -/
def field_type_of (jsbm : Json → Except String DynModel)
    (field_name : String) (field_props : List (String × Json)) :
    Except String PyType :=
  let json_type := (lookupKey field_props "type").getD (.str "string")
  let enum_values := (lookupKey field_props "enum").getD .null
  if truthy enum_values then
    mkEnum (pyCapitalize field_name ++ "Enum") enum_values
  else if jsonEqStr json_type "object" &&
      (lookupKey field_props "properties").isSome then
    (jsbm (.obj field_props)).map .modelT
  else if jsonEqStr json_type "array" &&
      (lookupKey field_props "items").isSome then
    match (lookupKey field_props "items").getD .null with
    | .obj item_props =>
      let item_type := lookupKey item_props "type"
      if (match item_type with
          | some (.str "object") => true
          | _ => false) then
        (jsbm (.obj item_props)).map (fun m => PyType.pylist (some (.modelT m)))
      else
        Except.ok (PyType.pylist (some
          (type_mapping_get (item_type.getD .null))))
    | _ => Except.error "AttributeError: object has no attribute get"
  else
    Except.ok (type_mapping_get json_type)

/-- The `for field_name, field_props in properties.items():` loop of
`json_schema_to_base_model`: processes each property in order through
the given field processor, building the `model_fields` entries; the
first exception aborts the loop. -/
def model_fields_loop
    (pf : String → Json → Except String (PyType × PyDefault × Json)) :
    List (String × Json) → Except String (List (String × FieldSpec))
  | [] => .ok []
  | (field_name, field_props) :: rest => do
    let r ← pf field_name field_props
    let rest' ← model_fields_loop pf rest
    .ok ((field_name, FieldSpec.mk r.1 r.2.1 r.2.2) :: rest')

mutual
/-- Embedding of `json_schema_to_base_model` (structure_service.py,
lines 77-133).  Reads `properties` (default `\x7b\x7d`), `required`
(default `[]`), processes every property through `process_field`, and
builds the model named `schema.get("title", "DynamicModel")`.  Called on
a non-dict the Python raises `AttributeError` at `schema.get`; a
non-dict `properties` raises at `.items()`; a non-string `title` makes
class creation raise. -/
def json_schema_to_base_model : Nat → Json → Except String DynModel
  | 0, _ => .error "RecursionError: maximum recursion depth exceeded"
  | fuel + 1, .obj schema => do
    let properties := (lookupKey schema "properties").getD (.obj [])
    let required_fields := (lookupKey schema "required").getD (.arr [])
    let plist ← match properties with
      | .obj l => Except.ok l
      | _ => Except.error "AttributeError: object has no attribute items"
    let model_fields ← model_fields_loop (process_field fuel required_fields) plist
    match lookupKey schema "title" with
    | none => .ok (DynModel.mk "DynamicModel" model_fields)
    | some (.str t) => .ok (DynModel.mk t model_fields)
    | some _ => .error "TypeError: type name must be a string"
  | _ + 1, _ => .error "AttributeError: object has no attribute get"

/-- Embedding of `process_field` (structure_service.py, lines 91-127).
`required_fields` is the enclosing schema's `required` value, captured by
the Python closure.  Returns the field type, the default slot and the
`description` (read from the fragment's `title`). -/
def process_field : Nat → Json → String → Json →
    Except String (PyType × PyDefault × Json)
  | 0, _, _, _ => .error "RecursionError: maximum recursion depth exceeded"
  | fuel + 1, required_fields, field_name, .obj field_props => do
    let field_type ← field_type_of (json_schema_to_base_model fuel)
        field_name field_props
    let default_value : PyDefault :=
      match lookupKey field_props "default" with
      | some d => .value d
      | none => .required
    let nullable := (lookupKey field_props "nullable").getD (.bool false)
    let description := (lookupKey field_props "title").getD (.str "")
    let field_type := if truthy nullable then .optionalT field_type else field_type
    let inRequired ← pyContains required_fields field_name
    let default_value :=
      if inRequired then default_value
      else PyDefault.value ((lookupKey field_props "default").getD .null)
    .ok (field_type, default_value, description)
  | _ + 1, _, _, _ => .error "AttributeError: object has no attribute get"
end

/-- Fuel ample for any schema a caller sends (Python's default recursion
limit is 1000). -/
def defaultFuel : Nat := 1000

/-- Embedding of `create_dynamic_model` (lines 65-134).  The
`json.loads(schema_description)` step is modelled by its outcome: an
`Except String Json` that is `.error` exactly when the text is not
well-formed JSON, in which case the exception propagates — the function
body has no handler.  `struct_model_name` is the second parameter of the
Python function; the body never reads it. -/
def create_dynamic_model (parsed_schema_description : Except String Json)
    (_struct_model_name : String) : Except String DynModel :=
  match parsed_schema_description with
  | .error e => .error e
  | .ok j => json_schema_to_base_model defaultFuel j

/-- Modelled from the spec: the treatment of one declared field during
instantiation (§4.5), with `vf` the per-value validator.  A supplied
value is validated against the field's type and echoed unchanged on
success; an omitted field is an error naming the field when its default
slot is the required marker, and resolves to its default value
otherwise. -/
def validate_entry (vf : PyType → Json → Bool)
    (cand : List (String × Json)) (p : String × FieldSpec) :
    Except String (String × Json) :=
  match lookupKey cand p.1 with
  | some v => if vf p.2.type v then .ok (p.1, v) else .error p.1
  | none =>
    match p.2.default with
    | .required => .error p.1
    | .value d => .ok (p.1, d)

/-- The field names of the failed entries, in declaration order. -/
def collect_errors (rs : List (Except String (String × Json))) :
    List String :=
  rs.filterMap (fun r => match r with | .error e => some e | .ok _ => none)

/-- The resolved (field name, value) pairs of the successful entries. -/
def collect_oks (rs : List (Except String (String × Json))) :
    List (String × Json) :=
  rs.filterMap (fun r => match r with | .ok x => some x | .error _ => none)

mutual
/-- Modelled from the spec: the Instantiator/Validator of §4.5, realized
in the running system by the pydantic library (not part of src/).  For
each declared field in order: a supplied value is validated against the
field's type; an omitted field is an error when its default slot is the
required marker, and resolves to its default value otherwise; extra
candidate keys are ignored; per-field failures accumulate into one
aggregated `FieldErrors` list naming every failed field. -/
def validateModel : Nat → DynModel → Json →
    Except (List String) (List (String × Json))
  | 0, _, _ => .error ["RecursionError: maximum recursion depth exceeded"]
  | fuel + 1, .mk _ fields, .obj cand =>
    let results := fields.map (validate_entry (validateField fuel) cand)
    let errs := collect_errors results
    if errs.isEmpty then .ok (collect_oks results) else .error errs
  | _ + 1, _, _ => .error ["candidate value is not an object"]

/-- Modelled from the spec: per-kind validation of one supplied value
(§4.5): enum membership by Python equality, element-wise array checks,
recursive object validation, primitive checks with no cross-kind
coercion, `null` admitted by `Optional` types, anything by `Any`. -/
def validateField : Nat → PyType → Json → Bool
  | 0, _, _ => false
  | fuel + 1, t, v =>
    match t, v with
    | .pystr, .str _ => true
    | .pyint, .num _ => true
    | .pyfloat, .num _ => true
    | .pybool, .bool _ => true
    | .pydict, .obj _ => true
    | .anyT, _ => true
    | .enumT _ vs, w => vs.any (fun u => Json.beq u w)
    | .pylist none, .arr _ => true
    | .pylist (some te), .arr l => l.all (fun x => validateField fuel te x)
    | .modelT m, w => (validateModel fuel m w).isOk
    | .optionalT te, w => Json.beq w .null || validateField fuel te w
    | _, _ => false
end

/-! ## Sanity checks on concrete schemas -/

/-- The Pet schema of spec §8. -/
def petSchema : Json := .obj
  [("title", .str "Pet"),
   ("type", .str "object"),
   ("properties", .obj
     [("name", .obj [("type", .str "string")]),
      ("species", .obj
        [("type", .str "string"),
         ("enum", .arr [.str "dog", .str "cat"])])]),
   ("required", .arr [.str "name"])]

/-- Compiled form of the Pet schema. -/
def petModel : DynModel := .mk "Pet"
  [("name", .mk .pystr .required (.str "")),
   ("species", .mk (.enumT "SpeciesEnum" [.str "dog", .str "cat"])
      (.value .null) (.str ""))]

example : json_schema_to_base_model 5 petSchema = .ok petModel := rfl

example : json_schema_to_base_model 5 (.obj []) =
    .ok (.mk "DynamicModel" []) := rfl

example : validateModel 5 petModel
    (.obj [("name", .str "Rex"), ("species", .str "dog")]) =
    .ok [("name", .str "Rex"), ("species", .str "dog")] := rfl

example : validateModel 5 petModel (.obj [("species", .str "fish")]) =
    .error ["name", "species"] := rfl

/-! ## Helper lemmas -/

/-- The root name of a successfully compiled object schema comes from its
`title` entry, defaulting to "DynamicModel". -/
theorem jsbm_name {fuel : Nat} {s : List (String × Json)} {m : DynModel}
    (h : json_schema_to_base_model (fuel + 1) (.obj s) = .ok m) :
    m.name = (match lookupKey s "title" with
      | some (.str t) => t
      | _ => "DynamicModel") := by
  simp only [json_schema_to_base_model, bind, Except.bind] at h
  cases hp : (lookupKey s "properties").getD (.obj []) <;> rw [hp] at h
  case null => exact absurd h (by simp)
  case bool b => exact absurd h (by simp)
  case num n => exact absurd h (by simp)
  case str t => exact absurd h (by simp)
  case arr a => exact absurd h (by simp)
  case obj l =>
    dsimp only [] at h
    cases hb : model_fields_loop
        (process_field fuel ((lookupKey s "required").getD (.arr []))) l <;>
      rw [hb] at h
    · exact absurd h (by simp)
    · revert h
      cases lookupKey s "title"
      · intro h
        injection h with h'
        rw [← h']
        rfl
      · case some v =>
        cases v
        case str t =>
          intro h
          injection h with h'
          rw [← h']
          rfl
        all_goals intro h; exact absurd h (by simp)

/-- Removing every binding of key `k` from an object's entries. -/
def eraseKey (k : String) (l : List (String × Json)) : List (String × Json) :=
  l.filter (fun p => p.1 ≠ k)

theorem lookupKey_eraseKey {k k' : String} (hne : k' ≠ k)
    (l : List (String × Json)) :
    lookupKey (eraseKey k l) k' = lookupKey l k' := by
  induction l with
  | nil => rfl
  | cons p rest ih =>
    obtain ⟨k₀, v⟩ := p
    by_cases h₀ : k₀ = k
    · have he : eraseKey k ((k₀, v) :: rest) = eraseKey k rest := by
        simp [eraseKey, h₀]
      have hk₀ : k₀ ≠ k' := by
        rw [h₀]
        exact fun hh => hne hh.symm
      have hl : lookupKey ((k₀, v) :: rest) k' = lookupKey rest k' := by
        simp [lookupKey, hk₀]
      rw [he, ih, hl]
    · have he : eraseKey k ((k₀, v) :: rest) = (k₀, v) :: eraseKey k rest := by
        simp [eraseKey, h₀]
      rw [he]
      by_cases h₁ : k₀ = k'
      · simp [lookupKey, h₁]
      · simp [lookupKey, h₁, ih]

theorem lookupKey_cons_ne {k₀ k' : String} (hne : k₀ ≠ k') (v : Json)
    (l : List (String × Json)) :
    lookupKey ((k₀, v) :: l) k' = lookupKey l k' := by
  simp [lookupKey, hne]

/-- `field_type_of` reads only the `type`, `enum`, `properties` and
`items` keys of the fragment, plus whatever the recursive compiler call
reads of the whole fragment. -/
theorem field_type_of_congr (f : Json → Except String DynModel)
    (name : String) {p₁ p₂ : List (String × Json)}
    (hty : lookupKey p₁ "type" = lookupKey p₂ "type")
    (hen : lookupKey p₁ "enum" = lookupKey p₂ "enum")
    (hpr : lookupKey p₁ "properties" = lookupKey p₂ "properties")
    (hit : lookupKey p₁ "items" = lookupKey p₂ "items")
    (hrec : f (.obj p₁) = f (.obj p₂)) :
    field_type_of f name p₁ = field_type_of f name p₂ := by
  simp only [field_type_of, hty, hen, hpr, hit, hrec]

/-- `json_schema_to_base_model` reads only the `properties`, `required`
and `title` keys of its fragment: the subfragments it recurses into all
come out of the `properties` value. -/
theorem jsbm_reads_three_keys (fuel : Nat) {s₁ s₂ : List (String × Json)}
    (hp : lookupKey s₁ "properties" = lookupKey s₂ "properties")
    (hr : lookupKey s₁ "required" = lookupKey s₂ "required")
    (ht : lookupKey s₁ "title" = lookupKey s₂ "title") :
    json_schema_to_base_model fuel (.obj s₁) =
      json_schema_to_base_model fuel (.obj s₂) := by
  cases fuel with
  | zero => rfl
  | succ fuel => simp only [json_schema_to_base_model, hp, hr, ht]

/-- `process_field` reads only the eight keys `type`, `enum`,
`properties`, `required`, `items`, `default`, `nullable`, `title` of its
fragment (and `required`, `properties`, `title` again through the nested
compiler call on the same fragment). -/
theorem process_field_congr (fuel : Nat) (req : Json) (name : String)
    {p₁ p₂ : List (String × Json)}
    (hty : lookupKey p₁ "type" = lookupKey p₂ "type")
    (hen : lookupKey p₁ "enum" = lookupKey p₂ "enum")
    (hpr : lookupKey p₁ "properties" = lookupKey p₂ "properties")
    (hrq : lookupKey p₁ "required" = lookupKey p₂ "required")
    (hit : lookupKey p₁ "items" = lookupKey p₂ "items")
    (hdf : lookupKey p₁ "default" = lookupKey p₂ "default")
    (hnl : lookupKey p₁ "nullable" = lookupKey p₂ "nullable")
    (hti : lookupKey p₁ "title" = lookupKey p₂ "title") :
    process_field fuel req name (.obj p₁) =
      process_field fuel req name (.obj p₂) := by
  cases fuel with
  | zero => rfl
  | succ fuel =>
    simp only [process_field, hdf, hnl, hti,
      field_type_of_congr (json_schema_to_base_model fuel) name hty hen hpr hit
        (jsbm_reads_three_keys fuel hpr hrq hti)]

/-- The base kind of a compiled field type, undoing the `Optional[...]`
wrapper that a truthy `nullable` adds around the computed kind. -/
def stripOptional : PyType → PyType
  | .optionalT t => t
  | t => t

theorem stripOptional_type_mapping_get (j : Json) :
    stripOptional (type_mapping_get j) = type_mapping_get j := by
  unfold type_mapping_get
  split <;> rfl

/-- A successful `mkEnum` always returns an enum type carrying the given
name. -/
theorem mkEnum_ok {n : String} {ev : Json} {t : PyType}
    (h : mkEnum n ev = .ok t) : ∃ vs, t = .enumT n vs := by
  simp only [mkEnum, bind, Except.bind] at h
  cases hit : pyIter ev <;> rw [hit] at h
  · exact absurd h (by simp)
  · case ok vs =>
    dsimp only [] at h
    by_cases hall : (dedupFirst vs).all Json.isStr = true
    · rw [if_pos hall] at h
      exact ⟨dedupFirst vs, (Except.ok.inj h).symm⟩
    · rw [if_neg hall] at h
      exact absurd h (by simp)

/-! ## Claims -/

/-- C1 counterexample: on input text that is not parseable JSON
(`json.loads` fails, e.g. on the text `not a schema` with
"Expecting value: line 1 column 1 (char 0)"), `create_dynamic_model`
does not return a fallback RecordType: the parse exception propagates to
the caller, the body having no handler. -/
theorem C1_counterexample_parse_failure_raises :
    create_dynamic_model
      (.error "Expecting value: line 1 column 1 (char 0)") "DynamicModel" =
    .error "Expecting value: line 1 column 1 (char 0)" := rfl

/-- C1 amended: a parse failure of the schema text propagates out of
`create_dynamic_model` unchanged (no fallback type, no documentation
string carrying the raw text); text that parses to an object with no
usable `properties` compiles to a model with zero fields (hence zero
required fields) named "DynamicModel", but with no documentation string
either. -/
theorem C1_amended_parse_failure_raises :
    (∀ (e : String) (n : String),
      create_dynamic_model (.error e) n = .error e) ∧
    (∀ fuel : Nat,
      json_schema_to_base_model (fuel + 1) (.obj []) =
        .ok (.mk "DynamicModel" [])) :=
  ⟨fun _ _ => rfl, fun _ => rfl⟩

/-- C9: the `struct_model_name` argument of `create_dynamic_model` has no
effect on the compiled result, which is structurally identical for any
two argument values; the root model's name depends only on the schema
document's `title` entry, falling back to "DynamicModel". -/
theorem C9_struct_model_name_unused :
    (∀ (p : Except String Json) (n₁ n₂ : String),
      create_dynamic_model p n₁ = create_dynamic_model p n₂) ∧
    (∀ (fuel : Nat) (s : List (String × Json)) (m : DynModel),
      json_schema_to_base_model (fuel + 1) (.obj s) = .ok m →
      m.name = (match lookupKey s "title" with
        | some (.str t) => t
        | _ => "DynamicModel")) :=
  ⟨fun _ _ _ => rfl, fun _ _ _ h => jsbm_name h⟩

/-- C9 witness: instantiating the independence statement at the Pet
schema and two distinct model names, and the naming statement at the Pet
schema, whose title "Pet" becomes the root name. -/
theorem C9_struct_model_name_unused_witness :
    create_dynamic_model (.ok petSchema) "Alpha" =
      create_dynamic_model (.ok petSchema) "Beta" ∧
    petModel.name = "Pet" :=
  ⟨C9_struct_model_name_unused.1 (.ok petSchema) "Alpha" "Beta",
   C9_struct_model_name_unused.2 4
     (match petSchema with | .obj l => l | _ => []) petModel rfl⟩

/-- C8: a key outside the recognized set — `$ref`, `oneOf`, `anyOf`,
`allOf`, `additionalProperties`, `pattern`, numeric bounds, or any other —
is silently ignored: compiling a fragment (or a whole schema document)
with every binding of such a key erased yields the very same compiled
result, and never an error on account of that key. -/
theorem C8_unrecognized_keys_ignored (k : String)
    (hk : k ∉ ["type", "properties", "required", "items", "enum",
      "nullable", "default", "title", "description"]) :
    (∀ (fuel : Nat) (req : Json) (name : String)
       (props : List (String × Json)),
      process_field fuel req name (.obj (eraseKey k props)) =
        process_field fuel req name (.obj props)) ∧
    (∀ (fuel : Nat) (s : List (String × Json)),
      json_schema_to_base_model fuel (.obj (eraseKey k s)) =
        json_schema_to_base_model fuel (.obj s)) := by
  have hty : ("type" : String) ≠ k := by rintro rfl; simp at hk
  have hpr : ("properties" : String) ≠ k := by rintro rfl; simp at hk
  have hrq : ("required" : String) ≠ k := by rintro rfl; simp at hk
  have hit : ("items" : String) ≠ k := by rintro rfl; simp at hk
  have hen : ("enum" : String) ≠ k := by rintro rfl; simp at hk
  have hnl : ("nullable" : String) ≠ k := by rintro rfl; simp at hk
  have hdf : ("default" : String) ≠ k := by rintro rfl; simp at hk
  have hti : ("title" : String) ≠ k := by rintro rfl; simp at hk
  constructor
  · intro fuel req name props
    exact process_field_congr fuel req name
      (lookupKey_eraseKey hty props) (lookupKey_eraseKey hen props)
      (lookupKey_eraseKey hpr props) (lookupKey_eraseKey hrq props)
      (lookupKey_eraseKey hit props) (lookupKey_eraseKey hdf props)
      (lookupKey_eraseKey hnl props) (lookupKey_eraseKey hti props)
  · intro fuel s
    exact jsbm_reads_three_keys fuel
      (lookupKey_eraseKey hpr s) (lookupKey_eraseKey hrq s)
      (lookupKey_eraseKey hti s)

/-- C8 witness: erasing a concrete `$ref` binding from a concrete
fragment leaves both the compiled field and the compiled document
unchanged. -/
theorem C8_unrecognized_keys_ignored_witness :
    process_field 3 (.arr []) "f"
        (.obj (eraseKey "$ref"
          [("type", .str "string"), ("$ref", .str "#/defs/x")])) =
      process_field 3 (.arr []) "f"
        (.obj [("type", .str "string"), ("$ref", .str "#/defs/x")]) ∧
    json_schema_to_base_model 3
        (.obj (eraseKey "$ref"
          [("properties", .obj []), ("$ref", .str "#/defs/x")])) =
      json_schema_to_base_model 3
        (.obj [("properties", .obj []), ("$ref", .str "#/defs/x")]) :=
  ⟨(C8_unrecognized_keys_ignored "$ref" (by decide)).1 3 (.arr []) "f" _,
   (C8_unrecognized_keys_ignored "$ref" (by decide)).2 3 _⟩

/-- C7 counterexample: a fragment declaring both a `description` and a
`title` compiles with documentation equal to the `title` alone — the
`description` string "field docs" is not copied anywhere into the
compiled field. -/
theorem C7_counterexample_description_dropped :
    process_field 1 (.arr []) "f"
      (.obj [("type", .str "string"), ("description", .str "field docs"),
             ("title", .str "Field Title")]) =
      .ok (.pystr, .value .null, .str "Field Title") ∧
    Json.str "Field Title" ≠ Json.str "field docs" :=
  ⟨rfl, by simp⟩

/-- C7 amended: the compiled field's documentation is the fragment's
`title` value copied verbatim (empty string when `title` is absent); the
fragment's `description` key is never read — adding a `description`
binding leaves the compiled field unchanged.  (`title` still doubles as
the type name of object fragments, see the C5 theorem.) -/
theorem C7_amended_title_is_documentation :
    (∀ (fuel : Nat) (req : Json) (name : String)
       (props : List (String × Json)) (t : PyType) (d : PyDefault)
       (desc : Json),
      process_field (fuel + 1) req name (.obj props) = .ok (t, d, desc) →
      desc = (lookupKey props "title").getD (.str "")) ∧
    (∀ (fuel : Nat) (req : Json) (name : String)
       (props : List (String × Json)) (v : Json),
      process_field fuel req name (.obj (("description", v) :: props)) =
        process_field fuel req name (.obj props)) := by
  constructor
  · intro fuel req name props t d desc h
    simp only [process_field, bind, Except.bind] at h
    cases hft : field_type_of (json_schema_to_base_model fuel) name props <;>
      rw [hft] at h
    · exact absurd h (by simp)
    · cases hin : pyContains req name <;> rw [hin] at h
      · exact absurd h (by simp)
      · simp only [Except.ok.injEq, Prod.mk.injEq] at h
        exact h.2.2.symm
  · intro fuel req name props v
    have hne : ∀ k' : String, k' ≠ "description" →
        lookupKey (("description", v) :: props) k' = lookupKey props k' :=
      fun k' h => lookupKey_cons_ne (fun hh => h hh.symm) v props
    exact process_field_congr fuel req name
      (hne "type" (by decide)) (hne "enum" (by decide))
      (hne "properties" (by decide)) (hne "required" (by decide))
      (hne "items" (by decide)) (hne "default" (by decide))
      (hne "nullable" (by decide)) (hne "title" (by decide))

/-- C7 witness: at a concrete fragment with `title` "T", the compiled
documentation is "T", and prepending a `description` binding to a
concrete fragment leaves the compiled field unchanged. -/
theorem C7_amended_title_is_documentation_witness :
    Json.str "T" = (lookupKey [("title", Json.str "T")] "title").getD (.str "") ∧
    process_field 2 (.arr []) "g"
        (.obj (("description", .str "docs") :: [("title", .str "T")])) =
      process_field 2 (.arr []) "g" (.obj [("title", .str "T")]) :=
  ⟨C7_amended_title_is_documentation.1 1 (.arr []) "g"
      [("title", .str "T")] .pystr (.value .null) (.str "T") rfl,
   C7_amended_title_is_documentation.2 2 (.arr []) "g"
      [("title", .str "T")] (.str "docs")⟩

/-- `field_type_of` in the enum branch. -/
theorem field_type_of_enum {f : Json → Except String DynModel}
    {name : String} {props : List (String × Json)}
    (henum : truthy ((lookupKey props "enum").getD .null) = true) :
    field_type_of f name props =
      mkEnum (pyCapitalize name ++ "Enum")
        ((lookupKey props "enum").getD .null) := by
  simp [field_type_of, henum]

/-- `field_type_of` in the nested-object branch. -/
theorem field_type_of_object {f : Json → Except String DynModel}
    {name : String} {props : List (String × Json)}
    (henum : truthy ((lookupKey props "enum").getD .null) = false)
    (hcond : (jsonEqStr ((lookupKey props "type").getD (.str "string"))
        "object" && (lookupKey props "properties").isSome) = true) :
    field_type_of f name props = (f (.obj props)).map .modelT := by
  simp [field_type_of, henum, hcond]

/-- `field_type_of` in the final (primitive-table) branch. -/
theorem field_type_of_else {f : Json → Except String DynModel}
    {name : String} {props : List (String × Json)}
    (henum : truthy ((lookupKey props "enum").getD .null) = false)
    (hobj : (jsonEqStr ((lookupKey props "type").getD (.str "string"))
        "object" && (lookupKey props "properties").isSome) = false)
    (harr : (jsonEqStr ((lookupKey props "type").getD (.str "string"))
        "array" && (lookupKey props "items").isSome) = false) :
    field_type_of f name props =
      .ok (type_mapping_get ((lookupKey props "type").getD (.str "string"))) := by
  simp [field_type_of, henum, hobj, harr]

/-- C5 counterexample: a nested object fragment without a `title` is
*not* given a synthetic name derived from its owning field's name: the
nested RecordType is named with the constant fallback "DynamicModel"
whether the owning field is called `child` or `other`. -/
theorem C5_counterexample_nested_name_constant :
    json_schema_to_base_model 3
      (.obj [("properties", .obj
        [("child", .obj [("type", .str "object"),
                         ("properties", .obj [])])])]) =
      .ok (.mk "DynamicModel"
        [("child", .mk (.modelT (.mk "DynamicModel" []))
            (.value .null) (.str ""))]) ∧
    json_schema_to_base_model 3
      (.obj [("properties", .obj
        [("other", .obj [("type", .str "object"),
                         ("properties", .obj [])])])]) =
      .ok (.mk "DynamicModel"
        [("other", .mk (.modelT (.mk "DynamicModel" []))
            (.value .null) (.str ""))]) :=
  ⟨rfl, rfl⟩

/-- C5 amended: every object fragment — root and nested alike — compiles
to a RecordType named by its own `title` when present and by the fixed
fallback "DynamicModel" otherwise (the owning field's name plays no
role); nested objects are compiled by the same recursive call on the
fragment; an enum fragment's type is named by the capitalized owning
field name followed by "Enum". -/
theorem C5_amended_type_naming :
    (∀ (fuel : Nat) (s : List (String × Json)) (m : DynModel),
      json_schema_to_base_model (fuel + 1) (.obj s) = .ok m →
      m.name = (match lookupKey s "title" with
        | some (.str t) => t
        | _ => "DynamicModel")) ∧
    (∀ (fuel : Nat) (req : Json) (name : String)
       (props : List (String × Json)) (t : PyType) (d : PyDefault)
       (desc : Json),
      truthy ((lookupKey props "enum").getD .null) = false →
      (jsonEqStr ((lookupKey props "type").getD (.str "string")) "object" &&
        (lookupKey props "properties").isSome) = true →
      process_field (fuel + 1) req name (.obj props) = .ok (t, d, desc) →
      ∃ m, stripOptional t = .modelT m ∧
        json_schema_to_base_model fuel (.obj props) = .ok m) ∧
    (∀ (fuel : Nat) (req : Json) (name : String)
       (props : List (String × Json)) (t : PyType) (d : PyDefault)
       (desc : Json),
      truthy ((lookupKey props "enum").getD .null) = true →
      process_field (fuel + 1) req name (.obj props) = .ok (t, d, desc) →
      ∃ vs, stripOptional t = .enumT (pyCapitalize name ++ "Enum") vs) := by
  refine ⟨fun fuel s m h => jsbm_name h, ?_, ?_⟩
  · intro fuel req name props t d desc henum hcond h
    simp only [process_field, bind, Except.bind,
      field_type_of_object henum hcond, Except.map] at h
    cases hres : json_schema_to_base_model fuel (.obj props) <;> rw [hres] at h
    · exact absurd h (by simp)
    · case ok m =>
      dsimp only [] at h
      cases hin : pyContains req name <;> rw [hin] at h
      · exact absurd h (by simp)
      · dsimp only [] at h
        simp only [Except.ok.injEq, Prod.mk.injEq] at h
        obtain ⟨h1, -, -⟩ := h
        refine ⟨m, ?_, rfl⟩
        rw [← h1]
        cases htr : truthy ((lookupKey props "nullable").getD (.bool false)) <;>
          simp [htr, stripOptional]
  · intro fuel req name props t d desc henum h
    simp only [process_field, bind, Except.bind,
      field_type_of_enum henum] at h
    cases hmk : mkEnum (pyCapitalize name ++ "Enum")
        ((lookupKey props "enum").getD .null) <;> rw [hmk] at h
    · exact absurd h (by simp)
    · case ok ft =>
      obtain ⟨vs, rfl⟩ := mkEnum_ok hmk
      dsimp only [] at h
      cases hin : pyContains req name <;> rw [hin] at h
      · exact absurd h (by simp)
      · dsimp only [] at h
        simp only [Except.ok.injEq, Prod.mk.injEq] at h
        obtain ⟨h1, -, -⟩ := h
        refine ⟨vs, ?_⟩
        rw [← h1]
        cases htr : truthy ((lookupKey props "nullable").getD (.bool false)) <;>
          simp [htr, stripOptional]

/-- C5 witness: the naming statements applied at concrete fragments: an
untitled root compiles to name "DynamicModel"; a concrete nested object
fragment compiles to a nested model; a concrete enum field gets the name
"SpeciesEnum" from its owning field `species`. -/
theorem C5_amended_type_naming_witness :
    (DynModel.mk "DynamicModel" []).name = "DynamicModel" ∧
    (∃ m, stripOptional (.modelT (.mk "DynamicModel" [])) = .modelT m ∧
      json_schema_to_base_model 2
        (.obj [("type", .str "object"), ("properties", .obj [])]) = .ok m) ∧
    (∃ vs, stripOptional (.enumT "SpeciesEnum" [.str "dog", .str "cat"]) =
      .enumT (pyCapitalize "species" ++ "Enum") vs) :=
  ⟨C5_amended_type_naming.1 1 [] (.mk "DynamicModel" []) rfl,
   C5_amended_type_naming.2.1 2 (.arr []) "child"
     [("type", .str "object"), ("properties", .obj [])]
     (.modelT (.mk "DynamicModel" [])) (.value .null) (.str "") rfl rfl rfl,
   C5_amended_type_naming.2.2 0 (.arr []) "species"
     [("enum", .arr [.str "dog", .str "cat"])]
     (.enumT "SpeciesEnum" [.str "dog", .str "cat"])
     (.value .null) (.str "") rfl rfl⟩

/-- C4: a fragment that falls into none of the enum, object-with-
properties, array-with-items branches gets its kind from the primitive
table applied to its `type` value (defaulting to `"string"` when the key
is absent): string→str, integer→int, number→float, boolean→bool,
array→bare list, object→dict, and anything unknown or non-string →
`Any`.  (`nullable` only wraps the kind in `Optional`, which
`stripOptional` undoes.) -/
theorem C4_primitive_table_lookup :
    (∀ (f : Json → Except String DynModel) (name : String)
       (props : List (String × Json)),
      truthy ((lookupKey props "enum").getD .null) = false →
      (jsonEqStr ((lookupKey props "type").getD (.str "string")) "object" &&
        (lookupKey props "properties").isSome) = false →
      (jsonEqStr ((lookupKey props "type").getD (.str "string")) "array" &&
        (lookupKey props "items").isSome) = false →
      field_type_of f name props =
        .ok (type_mapping_get ((lookupKey props "type").getD (.str "string")))) ∧
    (∀ (fuel : Nat) (req : Json) (name : String)
       (props : List (String × Json)) (t : PyType) (d : PyDefault)
       (desc : Json),
      truthy ((lookupKey props "enum").getD .null) = false →
      (jsonEqStr ((lookupKey props "type").getD (.str "string")) "object" &&
        (lookupKey props "properties").isSome) = false →
      (jsonEqStr ((lookupKey props "type").getD (.str "string")) "array" &&
        (lookupKey props "items").isSome) = false →
      process_field (fuel + 1) req name (.obj props) = .ok (t, d, desc) →
      stripOptional t =
        type_mapping_get ((lookupKey props "type").getD (.str "string"))) ∧
    (type_mapping_get (.str "string") = .pystr ∧
     type_mapping_get (.str "integer") = .pyint ∧
     type_mapping_get (.str "number") = .pyfloat ∧
     type_mapping_get (.str "boolean") = .pybool ∧
     type_mapping_get (.str "array") = .pylist none ∧
     type_mapping_get (.str "object") = .pydict) ∧
    (∀ s : String, s ∉ ["string", "integer", "number", "boolean", "array",
        "object"] → type_mapping_get (.str s) = .anyT) ∧
    (∀ j : Json, Json.isStr j = false → type_mapping_get j = .anyT) ∧
    (∀ props : List (String × Json), lookupKey props "type" = none →
      (lookupKey props "type").getD (.str "string") = .str "string") := by
  refine ⟨fun f name props henum hobj harr =>
      field_type_of_else henum hobj harr,
    ?_, ⟨rfl, rfl, rfl, rfl, rfl, rfl⟩, ?_, ?_, ?_⟩
  · intro fuel req name props t d desc henum hobj harr h
    simp only [process_field, bind, Except.bind,
      field_type_of_else henum hobj harr] at h
    cases hin : pyContains req name <;> rw [hin] at h
    · exact absurd h (by simp)
    · dsimp only [] at h
      simp only [Except.ok.injEq, Prod.mk.injEq] at h
      obtain ⟨h1, -, -⟩ := h
      rw [← h1]
      cases htr : truthy ((lookupKey props "nullable").getD (.bool false))
      · rw [if_neg (by simp)]
        exact stripOptional_type_mapping_get _
      · rw [if_pos rfl]
        rfl
  · intro s hs
    unfold type_mapping_get
    split <;> simp_all
  · intro j hj
    cases j <;> first | rfl | simp [Json.isStr] at hj
  · intro props hty
    rw [hty]
    rfl

/-- C4 witness: the statements applied at concrete fragments — a
concrete `integer` fragment compiles to the `int` kind; the unknown type
string "weird" and the non-string type value `5` map to `Any`; a
fragment with no `type` key is looked up as "string". -/
theorem C4_primitive_table_lookup_witness :
    stripOptional .pyint =
      type_mapping_get ((lookupKey [("type", Json.str "integer")] "type").getD
        (.str "string")) ∧
    type_mapping_get (.str "weird") = .anyT ∧
    type_mapping_get (.num 5) = .anyT ∧
    (lookupKey [] "type").getD (.str "string") = .str "string" :=
  ⟨C4_primitive_table_lookup.2.1 0 (.arr []) "f" [("type", .str "integer")]
     .pyint (.value .null) (.str "") rfl rfl rfl rfl,
   C4_primitive_table_lookup.2.2.2.1 "weird" (by decide),
   C4_primitive_table_lookup.2.2.2.2.1 (.num 5) rfl,
   C4_primitive_table_lookup.2.2.2.2.2 [] rfl⟩

/-- A failed entry contributes its field name to the collected errors. -/
theorem mem_collect_errors {e : String}
    {rs : List (Except String (String × Json))} (h : Except.error e ∈ rs) :
    e ∈ collect_errors rs :=
  List.mem_filterMap.2 ⟨Except.error e, h, rfl⟩

/-- C2: a required field (no `default` key, name in the parent's
`required` list) compiles to the required marker; a candidate omitting
such a field makes instantiation fail with that field's name among the
aggregated errors; and on the Pet schema of spec §8, the candidate
`\x7b"species": "fish"\x7d` is rejected with *both* the missing `name`
and the invalid `species` reported together. -/
theorem C2_missing_required_aggregated :
    (∀ (fuel : Nat) (req : Json) (name : String)
       (props : List (String × Json)) (t : PyType) (dv : PyDefault)
       (desc : Json),
      pyContains req name = .ok true →
      lookupKey props "default" = none →
      process_field (fuel + 1) req name (.obj props) = .ok (t, dv, desc) →
      dv = .required) ∧
    (∀ (fl : Nat) (mn : String) (fields : List (String × FieldSpec))
       (cand : List (String × Json)) (f : String) (spec : FieldSpec),
      (f, spec) ∈ fields → spec.default = .required →
      lookupKey cand f = none →
      ∃ errs,
        validateModel (fl + 1) (.mk mn fields) (.obj cand) = .error errs ∧
        f ∈ errs) ∧
    validateModel 5 petModel (.obj [("species", .str "fish")]) =
      .error ["name", "species"] := by
  refine ⟨?_, ?_, rfl⟩
  · intro fuel req name props t dv desc hreq hdef h
    simp only [process_field, bind, Except.bind, hdef] at h
    cases hft : field_type_of (json_schema_to_base_model fuel) name props <;>
      rw [hft] at h
    · exact absurd h (by simp)
    · dsimp only [] at h
      rw [hreq] at h
      dsimp only [] at h
      rw [if_pos rfl] at h
      simp only [Except.ok.injEq, Prod.mk.injEq] at h
      exact h.2.1.symm
  · intro fl mn fields cand f spec hmem hreq hmiss
    have hentry : validate_entry (validateField fl) cand (f, spec) =
        .error f := by
      simp [validate_entry, hmiss, hreq]
    have hmemr : Except.error f ∈
        fields.map (validate_entry (validateField fl) cand) := by
      have hmm := List.mem_map_of_mem
        (validate_entry (validateField fl) cand) hmem
      rwa [hentry] at hmm
    have hmeme :
        f ∈ collect_errors (fields.map (validate_entry (validateField fl) cand)) :=
      mem_collect_errors hmemr
    refine ⟨_, ?_, hmeme⟩
    have hne : (collect_errors
        (fields.map (validate_entry (validateField fl) cand))).isEmpty = false := by
      cases hcol : collect_errors
          (fields.map (validate_entry (validateField fl) cand)) with
      | nil => rw [hcol] at hmeme; exact absurd hmeme (by simp)
      | cons a as => rfl
    simp only [validateModel]
    rw [hne, if_neg (by simp)]

/-- C2 witness: the compile statement applied at the Pet `name` fragment
(required, no default — compiles to the required marker), and the
instantiation statement applied at the compiled Pet fields with the
candidate that omits `name`. -/
theorem C2_missing_required_aggregated_witness :
    (PyDefault.required = PyDefault.required) ∧
    (∃ errs,
      validateModel 3 (.mk "Pet"
        [("name", .mk .pystr .required (.str "")),
         ("species", .mk (.enumT "SpeciesEnum" [.str "dog", .str "cat"])
            (.value .null) (.str ""))])
        (.obj [("species", .str "dog")]) = .error errs ∧
      "name" ∈ errs) :=
  ⟨C2_missing_required_aggregated.1 0 (.arr [.str "name"]) "name"
     [("type", .str "string")] .pystr .required (.str "") rfl rfl rfl,
   C2_missing_required_aggregated.2.1 2 "Pet"
     [("name", .mk .pystr .required (.str "")),
      ("species", .mk (.enumT "SpeciesEnum" [.str "dog", .str "cat"])
         (.value .null) (.str ""))]
     [("species", .str "dog")] "name" (.mk .pystr .required (.str ""))
     (List.mem_cons_self _ _) rfl rfl⟩

/-- Key lookup on an arbitrary JSON value: `none` off objects. -/
def jsonGet : Json → String → Option Json
  | .obj l, k => lookupKey l k
  | _, _ => none

/-- The value an omitted field resolves to: its default when one is
recorded, null for the required marker (which never resolves). -/
def defaultJson : PyDefault → Json
  | .required => .null
  | .value d => d

/-- A field whose name Python's `in` does not find in the enclosing
`required` value always compiles with the explicit-or-null default of
line 125, never the required marker. -/
theorem process_field_optional_default {fuel : Nat} {req : Json}
    {name : String} {fp : Json} {t : PyType} {dv : PyDefault} {dsc : Json}
    (hnotreq : pyContains req name = .ok false)
    (h : process_field fuel req name fp = .ok (t, dv, dsc)) :
    dv = .value ((jsonGet fp "default").getD .null) := by
  cases fuel with
  | zero => exact absurd h (by simp [process_field])
  | succ fuel =>
    cases fp with
    | obj props =>
      simp only [process_field, bind, Except.bind] at h
      cases hft : field_type_of (json_schema_to_base_model fuel) name props <;>
        rw [hft] at h
      · exact absurd h (by simp)
      · dsimp only [] at h
        rw [hnotreq] at h
        dsimp only [] at h
        simp only [Bool.false_eq_true, if_false, Except.ok.injEq,
          Prod.mk.injEq] at h
        exact h.2.1.symm
    | null => exact absurd h (by simp [process_field])
    | bool b => exact absurd h (by simp [process_field])
    | num n => exact absurd h (by simp [process_field])
    | str s => exact absurd h (by simp [process_field])
    | arr a => exact absurd h (by simp [process_field])

/-- Under an empty `required` list, the compiled fields pair each
property with its explicit-or-null default, and none is required. -/
theorem model_fields_loop_defaults {fuel : Nat}
    (plist : List (String × Json)) (fields : List (String × FieldSpec))
    (h : model_fields_loop (process_field fuel (.arr [])) plist =
      .ok fields) :
    fields.map (fun q => (q.1, defaultJson q.2.default)) =
      plist.map (fun p => (p.1, (jsonGet p.2 "default").getD .null)) ∧
    ∀ q ∈ fields, q.2.default ≠ PyDefault.required := by
  induction plist generalizing fields with
  | nil =>
    simp only [model_fields_loop] at h
    obtain rfl : ([] : List (String × FieldSpec)) = fields := Except.ok.inj h
    exact ⟨rfl, by simp⟩
  | cons p rest ih =>
    simp only [model_fields_loop, bind, Except.bind] at h
    cases hpf : process_field fuel (.arr []) p.1 p.2 <;> rw [hpf] at h
    · exact absurd h (by simp)
    · case ok r =>
      dsimp only [] at h
      cases hrest : model_fields_loop (process_field fuel (.arr [])) rest <;>
        rw [hrest] at h
      · exact absurd h (by simp)
      · case ok fs =>
        dsimp only [] at h
        obtain rfl : (p.1, FieldSpec.mk r.1 r.2.1 r.2.2) :: fs = fields :=
          Except.ok.inj h
        obtain ⟨ih1, ih2⟩ := ih fs hrest
        obtain ⟨t, dv, dsc⟩ := r
        have hdv : dv = .value ((jsonGet p.2 "default").getD .null) :=
          process_field_optional_default
            (show pyContains (Json.arr []) p.1 = Except.ok false from rfl) hpf
        constructor
        · simp only [List.map_cons]
          rw [ih1, show (FieldSpec.mk t dv dsc).default = dv from rfl, hdv]
          rfl
        · intro q hq
          rcases List.mem_cons.1 hq with hq | hq
          · rw [hq]
            simp only [FieldSpec.default, hdv]
            exact fun hc => PyDefault.noConfusion hc
          · exact ih2 q hq

theorem collect_errors_map_ok {α : Type} (l : List α)
    (g : α → String × Json) :
    collect_errors (l.map (fun x => Except.ok (g x))) = [] := by
  induction l with
  | nil => rfl
  | cons a as ih => simp [collect_errors]

theorem collect_oks_map_ok {α : Type} (l : List α) (g : α → String × Json) :
    collect_oks (l.map (fun x => Except.ok (g x))) = l.map g := by
  induction l with
  | nil => rfl
  | cons a as ih => simpa [collect_oks] using ih

/-- Instantiating with an empty candidate succeeds whenever no compiled
field carries the required marker, each field resolving to its default. -/
theorem validateModel_empty_candidate {fl : Nat} {mn : String}
    {fields : List (String × FieldSpec)}
    (hnr : ∀ q ∈ fields, q.2.default ≠ PyDefault.required) :
    validateModel (fl + 1) (.mk mn fields) (.obj []) =
      .ok (fields.map (fun q => (q.1, defaultJson q.2.default))) := by
  have hres : fields.map (validate_entry (validateField fl) []) =
      fields.map (fun q => Except.ok (q.1, defaultJson q.2.default)) := by
    apply List.map_congr_left
    intro q hq
    cases hd : q.2.default with
    | required => exact absurd hd (hnr q hq)
    | value d => simp [validate_entry, lookupKey, hd, defaultJson]
  simp only [validateModel, hres, collect_errors_map_ok, collect_oks_map_ok,
    List.isEmpty_nil, if_true]

/-- C6: a schema whose `required` list is empty (or absent) compiles to
a model that accepts the empty candidate, resolving every property to
its declared `default` when the fragment has one and to null otherwise —
never a failure. -/
theorem C6_empty_required_accepts_empty_candidate
    (fuel fl : Nat) (s plist : List (String × Json)) (m : DynModel)
    (hreq : lookupKey s "required" = none ∨
      lookupKey s "required" = some (.arr []))
    (hp : lookupKey s "properties" = some (.obj plist))
    (hc : json_schema_to_base_model (fuel + 1) (.obj s) = .ok m) :
    validateModel (fl + 1) m (.obj []) =
      .ok (plist.map (fun p => (p.1, (jsonGet p.2 "default").getD .null))) := by
  have hreqv : (lookupKey s "required").getD (.arr []) = .arr [] := by
    rcases hreq with hreq | hreq <;> rw [hreq] <;> rfl
  simp only [json_schema_to_base_model, bind, Except.bind, hp, hreqv,
    Option.getD_some] at hc
  cases hb : model_fields_loop (process_field fuel (.arr [])) plist <;>
    rw [hb] at hc
  · exact absurd hc (by simp)
  · case ok fields =>
    dsimp only [] at hc
    obtain ⟨h1, h2⟩ := model_fields_loop_defaults plist fields hb
    revert hc
    cases lookupKey s "title"
    · intro hc
      obtain rfl : DynModel.mk "DynamicModel" fields = m := Except.ok.inj hc
      rw [validateModel_empty_candidate h2, h1]
    · case some v =>
      cases v
      case str t =>
        intro hc
        obtain rfl : DynModel.mk t fields = m := Except.ok.inj hc
        rw [validateModel_empty_candidate h2, h1]
      all_goals intro hc; exact absurd hc (by simp)

/-- C6 witness: a concrete document with no `required` key and two
properties, one with `default: 5` and one without, instantiates from the
empty candidate to `a = 5`, `b = null`. -/
theorem C6_empty_required_accepts_empty_candidate_witness :
    validateModel 1
      (.mk "DynamicModel"
        [("a", .mk .pystr (.value (.num 5)) (.str "")),
         ("b", .mk .pystr (.value .null) (.str ""))])
      (.obj []) =
    .ok [("a", .num 5), ("b", .null)] :=
  C6_empty_required_accepts_empty_candidate 1 0
    [("properties", .obj [("a", .obj [("default", .num 5)]),
                          ("b", .obj [])])]
    [("a", .obj [("default", .num 5)]), ("b", .obj [])]
    (.mk "DynamicModel"
      [("a", .mk .pystr (.value (.num 5)) (.str "")),
       ("b", .mk .pystr (.value .null) (.str ""))])
    (Or.inl rfl) rfl rfl

/-- C10: a field listed in the parent's `required` array whose fragment
nevertheless declares a `default` compiles with that default (the
required branch of line 117 keeps `field_props.get("default")`), so
instantiation with the field omitted succeeds and resolves it to the
declared default — the required flag is not enforced when an explicit
default exists. -/
theorem C10_default_overrides_required :
    (∀ (fuel : Nat) (req : Json) (name : String)
       (props : List (String × Json)) (d : Json) (t : PyType)
       (dv : PyDefault) (desc : Json),
      pyContains req name = .ok true →
      lookupKey props "default" = some d →
      process_field (fuel + 1) req name (.obj props) = .ok (t, dv, desc) →
      dv = .value d) ∧
    (∀ (fl : Nat) (mn fn : String) (t : PyType) (d : Json) (dsc : Json)
       (cand : List (String × Json)),
      lookupKey cand fn = none →
      validateModel (fl + 1) (.mk mn [(fn, .mk t (.value d) dsc)])
        (.obj cand) = .ok [(fn, d)]) := by
  constructor
  · intro fuel req name props d t dv desc hreq hdef h
    simp only [process_field, bind, Except.bind, hdef] at h
    cases hft : field_type_of (json_schema_to_base_model fuel) name props <;>
      rw [hft] at h
    · exact absurd h (by simp)
    · dsimp only [] at h
      rw [hreq] at h
      dsimp only [] at h
      rw [if_pos rfl] at h
      simp only [Except.ok.injEq, Prod.mk.injEq] at h
      exact h.2.1.symm
  · intro fl mn fn t d dsc cand hmiss
    simp [validateModel, validate_entry, collect_errors, collect_oks,
      FieldSpec.default, hmiss]

/-- C10 witness: a concrete `required` field with `default: "N/A"`
compiles with that default, and instantiation with the field omitted
resolves it to "N/A". -/
theorem C10_default_overrides_required_witness :
    PyDefault.value (.str "N/A") = PyDefault.value (.str "N/A") ∧
    validateModel 2 (.mk "M" [("f", .mk .pystr (.value (.str "N/A")) (.str ""))])
      (.obj []) = .ok [("f", .str "N/A")] :=
  ⟨C10_default_overrides_required.1 0 (.arr [.str "f"]) "f"
     [("type", .str "string"), ("default", .str "N/A")] (.str "N/A")
     .pystr (.value (.str "N/A")) (.str "") rfl rfl rfl,
   C10_default_overrides_required.2 1 "M" "f" .pystr (.str "N/A") (.str "")
     [] rfl⟩

/-- Deduplication returns a sublist: every member was in the input. -/
theorem mem_dedupFirstAux {v : Json} :
    ∀ (vs seen : List Json), v ∈ dedupFirstAux seen vs → v ∈ vs := by
  intro vs
  induction vs with
  | nil => intro seen h; exact absurd h (by simp [dedupFirstAux])
  | cons w rest ih =>
    intro seen h
    rw [dedupFirstAux] at h
    by_cases hs : seen.any (fun u => Json.beq u w) = true
    · rw [if_pos hs] at h
      exact List.mem_cons_of_mem _ (ih seen h)
    · rw [if_neg hs] at h
      rcases List.mem_cons.1 h with h | h
      · exact h ▸ List.mem_cons_self _ _
      · exact List.mem_cons_of_mem _ (ih (w :: seen) h)

/-- On a list whose members are pairwise not Python-equal, the dict
comprehension keeps every member: deduplication is the identity. -/
theorem dedupFirstAux_eq_self :
    ∀ (vs seen : List Json),
      (∀ v ∈ vs, seen.any (fun w => Json.beq w v) = false) →
      vs.Pairwise (fun a b => Json.beq a b = false) →
      dedupFirstAux seen vs = vs := by
  intro vs
  induction vs with
  | nil => intro seen _ _; rfl
  | cons v rest ih =>
    intro seen hseen hpw
    rw [dedupFirstAux, if_neg (by simp [hseen v (List.mem_cons_self _ _)])]
    congr 1
    apply ih
    · intro u hu
      simp only [List.any_cons, Bool.or_eq_false_iff]
      exact ⟨(List.pairwise_cons.1 hpw).1 u hu,
        hseen u (List.mem_cons_of_mem _ hu)⟩
    · exact (List.pairwise_cons.1 hpw).2

theorem dedupFirst_eq_self {vs : List Json}
    (h : vs.Pairwise (fun a b => Json.beq a b = false)) :
    dedupFirst vs = vs :=
  dedupFirstAux_eq_self vs [] (by simp) h

theorem mem_dedupFirst {v : Json} {vs : List Json}
    (h : v ∈ dedupFirst vs) : v ∈ vs :=
  mem_dedupFirstAux vs [] h

/-- C3 counterexample: an enum list with a duplicate literal does not
compile to "exactly that list": the dict comprehension
`\x7bv: v for v in enum_values\x7d` collapses the duplicate, so
`["dog", "dog", "cat"]` compiles to the two-member enum
`["dog", "cat"]`. -/
theorem C3_counterexample_duplicate_enum_collapsed :
    process_field 1 (.arr []) "species"
      (.obj [("enum", .arr [.str "dog", .str "dog", .str "cat"])]) =
      .ok (.enumT "SpeciesEnum" [.str "dog", .str "cat"],
           .value .null, .str "") ∧
    [Json.str "dog", Json.str "cat"] ≠
      [Json.str "dog", Json.str "dog", Json.str "cat"] :=
  ⟨rfl, fun h => by
    have hl := congrArg List.length h
    simp at hl⟩

/-- C3 amended: a fragment with a non-empty `enum` list is compiled by
the enum branch whatever its `type` says; the permitted values are the
list with Python-equal duplicates collapsed to their first occurrence —
exactly the original list, in order, whenever its members are pairwise
distinct — and enum members must be strings (Python's Enum API raises
`TypeError` otherwise).  At instantiation, a candidate value inside the
member list succeeds and is echoed unchanged, and a value outside it
fails naming the field. -/
theorem C3_amended_enum_compilation_and_validation :
    (∀ (f : Json → Except String DynModel) (name : String)
       (props : List (String × Json)) (vs : List Json),
      lookupKey props "enum" = some (.arr vs) → vs ≠ [] →
      field_type_of f name props =
        mkEnum (pyCapitalize name ++ "Enum") (.arr vs)) ∧
    (∀ (n : String) (vs : List Json),
      (∀ v ∈ vs, v.isStr = true) →
      vs.Pairwise (fun a b => Json.beq a b = false) →
      mkEnum n (.arr vs) = .ok (.enumT n vs)) ∧
    (∀ (n : String) (vs : List Json),
      (∀ v ∈ vs, v.isStr = true) →
      mkEnum n (.arr vs) = .ok (.enumT n (dedupFirst vs))) ∧
    (∀ (fl : Nat) (mn fn en : String) (vs : List Json) (dv : PyDefault)
       (dsc : Json) (v : Json),
      validateModel (fl + 2) (.mk mn [(fn, .mk (.enumT en vs) dv dsc)])
          (.obj [(fn, v)]) =
        if vs.any (fun u => Json.beq u v) then .ok [(fn, v)]
        else .error [fn]) := by
  refine ⟨?_, ?_, ?_, ?_⟩
  · intro f name props vs hl hne
    have htr : truthy ((lookupKey props "enum").getD .null) = true := by
      rw [hl]
      cases vs with
      | nil => exact absurd rfl hne
      | cons a as => rfl
    rw [field_type_of_enum htr, hl]
    rfl
  · intro n vs hs hpw
    simp only [mkEnum, pyIter, bind, Except.bind, dedupFirst_eq_self hpw]
    rw [if_pos (List.all_eq_true.2 hs)]
  · intro n vs hs
    simp only [mkEnum, pyIter, bind, Except.bind]
    rw [if_pos (List.all_eq_true.2
      (fun v hv => hs v (mem_dedupFirst hv)))]
  · intro fl mn fn en vs dv dsc v
    have hlk : lookupKey [(fn, v)] fn = some v := by simp [lookupKey]
    simp only [validateModel, validate_entry, FieldSpec.type, hlk,
      List.map_cons, List.map_nil]
    cases ha : vs.any (fun u => Json.beq u v) with
    | true =>
      simp only [validateField, ha, if_true]
      rfl
    | false =>
      simp only [validateField, ha, Bool.false_eq_true, if_false]
      rfl

/-- C3 witness: the statements applied at the Pet `species` enum: the
branch selection at the concrete fragment (which also declares
`type: "string"`, showing precedence), the exact two-member value list,
the deduplication statement, and validation of the in-set value "dog"
(echoed unchanged) and of the out-of-set value "fish" (failing, naming
the field). -/
theorem C3_amended_enum_witness :
    field_type_of (json_schema_to_base_model 0) "species"
        [("type", .str "string"),
         ("enum", .arr [.str "dog", .str "cat"])] =
      mkEnum "SpeciesEnum" (.arr [.str "dog", .str "cat"]) ∧
    mkEnum "SpeciesEnum" (.arr [.str "dog", .str "cat"]) =
      .ok (.enumT "SpeciesEnum" [.str "dog", .str "cat"]) ∧
    validateModel 2
        (.mk "Pet" [("species",
          .mk (.enumT "SpeciesEnum" [.str "dog", .str "cat"])
            (.value .null) (.str ""))])
        (.obj [("species", .str "dog")]) =
      .ok [("species", .str "dog")] ∧
    validateModel 2
        (.mk "Pet" [("species",
          .mk (.enumT "SpeciesEnum" [.str "dog", .str "cat"])
            (.value .null) (.str ""))])
        (.obj [("species", .str "fish")]) =
      .error ["species"] := by
  refine ⟨?_, ?_, ?_, ?_⟩
  · exact C3_amended_enum_compilation_and_validation.1
      (json_schema_to_base_model 0) "species"
      [("type", .str "string"), ("enum", .arr [.str "dog", .str "cat"])]
      [.str "dog", .str "cat"] rfl (by simp)
  · exact C3_amended_enum_compilation_and_validation.2.1 "SpeciesEnum"
      [.str "dog", .str "cat"] (by simp [Json.isStr])
      (by
        refine List.Pairwise.cons ?_ (List.Pairwise.cons ?_ List.Pairwise.nil)
        · intro b hb
          rw [List.mem_singleton.1 hb]
          rfl
        · intro b hb
          exact absurd hb (List.not_mem_nil b))
  · have h := C3_amended_enum_compilation_and_validation.2.2.2 0 "Pet"
      "species" "SpeciesEnum" [.str "dog", .str "cat"] (.value .null)
      (.str "") (.str "dog")
    simpa using h
  · have h := C3_amended_enum_compilation_and_validation.2.2.2 0 "Pet"
      "species" "SpeciesEnum" [.str "dog", .str "cat"] (.value .null)
      (.str "") (.str "fish")
    simpa using h

end SchemaForge
